import Mathlib

/-!
Verification development for the proxy-scraper-checker program (`main.py`).

The program scrapes proxy candidates from remote source lists, validates
them through outbound probes, optionally enriches survivors with
geolocation data, and writes the results to per-protocol files.

This file shallowly embeds the pure data transformations of `main.py`:

* Python string primitives (`str.replace`, `str.strip`, `str.split`) on
  character lists, and `ipaddress.IPv4Address` validation;
* the per-line candidate extraction of `fetch_source` (lines 121-139);
* the registry mutation performed by `check_proxy` (lines 144-175);
* `get_geolocation` (lines 76-105) over a model of the Python values
  returned by the mmdb reader, with raised exceptions as `Except.error`;
* the sorting key `_get_sorting_key` (lines 291-294) and the per-protocol
  sort of `sort_proxies` (lines 218-222);
* the directory reset and the file appends of `save_proxies`
  (lines 224-264), with the filesystem as explicit data;
* the summary-percentage computation of `main` (lines 274-277), with
  Python's `ZeroDivisionError` as `Except.error`;
* the source normalisation of `__init__` (lines 54-68), and an abstract
  transition system for the `asyncio.Semaphore` discipline of
  `check_proxy` (lines 50 and 153-161).

Registries are association lists `List (String × Option String)`
mirroring Python dicts (insertion order preserved, keys unique).
-/

namespace ProxyScraper

/-! ### Python string primitives -/

/-- The characters removed by Python's `str.strip()` (ASCII whitespace). -/
def isPySpace (c : Char) : Bool :=
  c == ' ' || c == '\t' || c == '\n' || c == '\x0d' || c == '\x0b' || c == '\x0c'

/-- Python `str.strip()` on a character list: drop leading and trailing
whitespace. -/
def pyStripList (s : List Char) : List Char :=
  ((s.dropWhile isPySpace).reverse.dropWhile isPySpace).reverse

/-- Worker for `str.replace`: scan left to right, replacing each
non-overlapping occurrence of `pat` by `repl`.  `fuel` only bounds the
recursion; every call site passes `s.length`, which suffices because each
step consumes at least one character of a nonempty `pat`. -/
def replaceAllAux (pat repl : List Char) : Nat → List Char → List Char
  | 0, s => s
  | _ + 1, [] => []
  | fuel + 1, c :: rest =>
    if pat.isPrefixOf (c :: rest) then
      repl ++ replaceAllAux pat repl fuel ((c :: rest).drop pat.length)
    else
      c :: replaceAllAux pat repl fuel rest

/-- Python `str.replace(pat, repl)` on character lists.  The program only
calls it with the nonempty patterns `"{proto}://"`, `"https://"` and
`":"`; an empty pattern is mapped to the identity. -/
def replaceAll (pat repl s : List Char) : List Char :=
  if pat.isEmpty then s else replaceAllAux pat repl s.length s

/-- Python `str.split(sep)` for a single-character separator. -/
def splitOnChar (sep : Char) : List Char → List (List Char)
  | [] => [[]]
  | c :: rest =>
    match splitOnChar sep rest with
    | [] => [[c]]
    | h :: t => if c == sep then [] :: h :: t else (c :: h) :: t

/-- String wrapper for `str.replace`. -/
def pyReplace (s pat repl : String) : String :=
  (replaceAll pat.toList repl.toList s.toList).asString

/-- String wrapper for `str.strip()`. -/
def pyStrip (s : String) : String :=
  (pyStripList s.toList).asString

/-- String wrapper for `str.split(sep)` (single-character separator). -/
def pySplit (sep : Char) (s : String) : List String :=
  (splitOnChar sep s.toList).map List.asString

/-- Python `s.split(":")[0]`: the text before the first colon (the whole
string when no colon is present).  `split` never returns an empty list,
so the Python indexing cannot fail. -/
def py_split_head (s : String) : String :=
  (pySplit ':' s).headD ""

/-! ### `ipaddress.IPv4Address` validation -/

/-- Numeric value of a string of decimal digits. -/
def digitsVal (s : List Char) : Nat :=
  s.foldl (fun a c => 10 * a + (c.toNat - 48)) 0

/-- Validity of one dotted-quad octet under `ipaddress.IPv4Address`:
nonempty, ASCII digits only, at most three characters, no leading zero
(except the single digit `0` itself), and value at most 255. -/
def validOctet (s : List Char) : Bool :=
  !s.isEmpty && s.all Char.isDigit && decide (s.length ≤ 3) &&
    (decide (s.length = 1) || !(s.headD '0' == '0')) &&
    decide (digitsVal s ≤ 255)

/-- Whether `ipaddress.IPv4Address(s)` succeeds: exactly four
dot-separated valid octets. -/
def validIPv4 (s : List Char) : Bool :=
  let parts := splitOnChar '.' s
  decide (parts.length = 4) && parts.all validOctet

/-- String wrapper for IPv4 validity. -/
def is_ipv4 (s : String) : Bool :=
  validIPv4 s.toList

/-! ### Registries

A per-protocol registry mirrors the Python dict
`self.proxies[proto] : Dict[str, Optional[str]]` as an association list:
insertion order preserved, keys unique. -/

/-- One protocol's slice of the candidate registry. -/
abbrev Reg := List (String × Option String)

/-- Python dict assignment `m[k] = v`: overwrite in place if the key is
present, else append at the end. -/
def dictSet (m : Reg) (k : String) (v : Option String) : Reg :=
  if m.any (fun kv => kv.1 == k) then
    m.map (fun kv => if kv.1 == k then (k, v) else kv)
  else
    m ++ [(k, v)]

/-! ### Source Fetcher (`fetch_source`, lines 121-139) -/

/-- Per-line candidate extraction of `fetch_source`: strip every
occurrence of `"{proto}://"` and of `"https://"`, trim whitespace, then
require the text before the first colon to be a valid IPv4 address.
Returns the cleaned candidate, or `none` for a silently discarded line. -/
def parse_proxy_line (proto line : String) : Option String :=
  let proxy := pyStrip (pyReplace (pyReplace line (proto ++ "://") "") "https://" "")
  if is_ipv4 (py_split_head proxy) then some proxy else none

/-- The registry mutation of `fetch_source`'s line loop: every line that
parses is inserted with pending outcome `None`; duplicate insertions
overwrite a pending entry in place. -/
def fetch_source_lines (proto : String) (lines : List String) (m : Reg) : Reg :=
  lines.foldl
    (fun m line =>
      match parse_proxy_line proto line with
      | some proxy => dictSet m proxy Option.none
      | Option.none => m)
    m

/-- The status dispatch of `fetch_source`: only a 200 response
contributes candidates; any other status is reported and contributes
nothing. -/
def fetch_source_model (status : Nat) (proto : String) (lines : List String)
    (m : Reg) : Reg :=
  if status = 200 then fetch_source_lines proto lines m else m

/-- Predicate following the spec's words for claim C1: a valid
dotted-quad IPv4 host, followed by a colon and a (nonempty, numeric)
port.  This is the spec-side reading to compare against the code;
`parse_proxy_line` itself only checks the text before the first colon. -/
def spec_isIPv4HostPort (s : String) : Bool :=
  match pySplit ':' s with
  | [host, port] => is_ipv4 host && !port.isEmpty && port.toList.all Char.isDigit
  | _ => false

/-- The registry produced by `fetch_all_sources` for one protocol: the
bodies of that protocol's sources (status code and lines each), folded
into the initially empty per-protocol dict. -/
def fetch_all_sources_model (proto : String) (bodies : List (Nat × List String)) : Reg :=
  bodies.foldl (fun m sb => fetch_source_model sb.1 proto sb.2 m) []

/-! ### Proxy Validator (`check_proxy`, lines 144-175)

The network outcome of one probe is abstracted as
`probe : String → Option String`: `some exit_node` when the tunnel
succeeded and the response body parsed as IPv4, `none` for any raised
exception.  `check_proxy` then either overwrites the candidate's dict
value with the exit node, or pops the key. -/

/-- Registry effect of one `check_proxy` call (lines 164-174):
`self.proxies[proto].pop(proxy)` on failure,
`self.proxies[proto][proxy] = exit_node` on success. -/
def check_proxy_step (probe : String → Option String) (m : Reg) (proxy : String) : Reg :=
  match probe proxy with
  | Option.none => m.filter (fun kv => !(kv.1 == proxy))
  | some exit_node => m.map (fun kv => if kv.1 == proxy then (proxy, some exit_node) else kv)

/-- Net registry effect of `check_all_proxies` for one protocol: every
scheduled proxy is probed exactly once; `order` is the (shuffled)
schedule.  Each probe touches only its own key, so the interleaving of
the concurrent tasks does not affect the final registry. -/
def check_all_proxies (probe : String → Option String) (order : List String) (m : Reg) : Reg :=
  order.foldl (check_proxy_step probe) m

/-! ### Summary computation (`main`, lines 274-277) -/

/-- The percentage computation `working / total * 100` of `main`;
Python's `ZeroDivisionError` is modelled as `Except.error`. -/
def summary_percentage (working total : Nat) : Except Unit ℚ :=
  if total = 0 then Except.error ()
  else Except.ok ((working : ℚ) / (total : ℚ) * 100)

/-- The summary rows of `main`'s table loop: for every protocol in the
registry, the survivor count and its percentage of the pre-probe count
`proxies_count`.  Any raised `ZeroDivisionError` aborts the loop. -/
def summary_rows (counts : String → Nat) :
    List (String × Reg) → Except Unit (List (String × Nat × ℚ))
  | [] => .ok []
  | pr :: rest =>
    match summary_percentage pr.2.length (counts pr.1) with
    | .error e => .error e
    | .ok percentage =>
      match summary_rows counts rest with
      | .error e => .error e
      | .ok tail => .ok ((pr.1, pr.2.length, percentage) :: tail)

/-! ### Geolocation Enricher (`get_geolocation`, lines 76-105)

The mmdb reader's results are Python objects: nested dicts, lists and
strings, or `None` on a lookup miss.  `PyVal` models them; a raised
exception (`KeyError`, `TypeError`, `IndexError`) is `Except.error ()`. -/

/-- A Python value as returned by `maxminddb.Reader.get`. -/
inductive PyVal where
  | pnone
  | pstr (s : String)
  | plist (elems : List PyVal)
  | pdict (entries : List (String × PyVal))

/-- Python truthiness of a `PyVal` (`if country:` and friends). -/
def PyVal.truthy : PyVal → Bool
  | .pnone => false
  | .pstr s => !(s == "")
  | .plist l => !l.isEmpty
  | .pdict l => !l.isEmpty

/-- Whether `isinstance(v, dict)` holds. -/
def PyVal.isDict : PyVal → Bool
  | .pdict _ => true
  | _ => false

/-- Python `dict.get(k)` with default `None`.  The program only calls it
on `geolocation` after the `isinstance(..., dict)` guard, so the
non-dict branch is unreachable. -/
def PyVal.pyGet (v : PyVal) (k : String) : PyVal :=
  match v with
  | .pdict l => ((l.find? (fun e => e.1 == k)).map Prod.snd).getD .pnone
  | _ => .pnone

/-- Python subscription `v[k]` with a string key: `KeyError` when a dict
lacks the key, `TypeError` on non-subscriptable values. -/
def PyVal.subscript (v : PyVal) (k : String) : Except Unit PyVal :=
  match v with
  | .pdict l =>
    match l.find? (fun e => e.1 == k) with
    | some e => .ok e.2
    | Option.none => .error ()
  | _ => .error ()

/-- Python subscription `v[0]`: head of a list, first character of a
string, `IndexError` or `TypeError` (or an integer-key `KeyError` on a
string-keyed dict) otherwise. -/
def PyVal.index0 : PyVal → Except Unit PyVal
  | .plist (x :: _) => .ok x
  | .plist [] => .error ()
  | .pstr s => if s.isEmpty then .error () else .ok (.pstr (String.singleton (s.toList.headD ' ')))
  | _ => .error ()

/-- The double subscription `v["names"]["en"]` used for every
geolocation field. -/
def namesEn (v : PyVal) : Except Unit PyVal :=
  match v.subscript "names" with
  | .error e => .error e
  | .ok n => n.subscript "en"

/-- How Python's f-string renders each field (`str(v)`).  The fields of
well-formed databases are strings or `None`; the repr of a container is
abbreviated since no claim evaluates it. -/
def pyRender : PyVal → String
  | .pnone => "None"
  | .pstr s => s
  | .plist _ => "[...]"
  | .pdict _ => "(dict)"

/-- The `country` computation of lines 92-98: the `country` record's
`names.en` when truthy, else the `continent` record's `names.en` when
truthy, else the (falsy) `continent` value itself. -/
def countryVal (g : PyVal) : Except Unit PyVal :=
  let c := g.pyGet "country"
  if c.truthy then namesEn c
  else
    let k := g.pyGet "continent"
    if k.truthy then namesEn k else .ok k

/-- The `region` computation of lines 99-101: `subdivisions[0].names.en`
when the `subdivisions` record is truthy, else the falsy value itself. -/
def regionVal (g : PyVal) : Except Unit PyVal :=
  let r := g.pyGet "subdivisions"
  if r.truthy then
    match r.index0 with
    | .error e => .error e
    | .ok x => namesEn x
  else .ok r

/-- The `city` computation of lines 102-104. -/
def cityVal (g : PyVal) : Except Unit PyVal :=
  let c := g.pyGet "city"
  if c.truthy then namesEn c else .ok c

/-- `get_geolocation` (lines 76-105).  `ip` is the candidate's recorded
exit node (`Optional[str]`; `if not ip` catches both `None` and the
empty string); `db` is the mmdb lookup, returning `PyVal.pnone` on a
miss.  A raised exception is `Except.error ()`. -/
def get_geolocation (ip : Option String) (db : String → PyVal) : Except Unit String :=
  match ip with
  | Option.none => .ok "::None::None::None"
  | some s =>
    if s == "" then .ok "::None::None::None"
    else
      let geolocation := db s
      if !geolocation.isDict then .ok "::None::None::None"
      else
        match countryVal geolocation with
        | .error e => .error e
        | .ok country =>
          match regionVal geolocation with
          | .error e => .error e
          | .ok region =>
            match cityVal geolocation with
            | .error e => .error e
            | .ok city =>
              .ok ("::" ++ pyRender country ++ "::" ++ pyRender region ++ "::" ++
                pyRender city)

/-- A field record that can be dereferenced as `v["names"]["en"]`. -/
def HasNamesEn (v : PyVal) : Prop := ∃ w, namesEn v = .ok w

/-- Well-formedness of one lookup result: every record that
`get_geolocation` dereferences carries its inner `names`/`en` data. -/
def WfGeo (g : PyVal) : Prop :=
  ((g.pyGet "country").truthy = true → HasNamesEn (g.pyGet "country")) ∧
  ((g.pyGet "country").truthy = false → (g.pyGet "continent").truthy = true →
    HasNamesEn (g.pyGet "continent")) ∧
  ((g.pyGet "subdivisions").truthy = true →
    ∃ x, (g.pyGet "subdivisions").index0 = .ok x ∧ HasNamesEn x) ∧
  ((g.pyGet "city").truthy = true → HasNamesEn (g.pyGet "city"))

/-- A lookup result witnessing that `get_geolocation` is not total: a
truthy `country` record with no `names` key. -/
def geoBadDb : String → PyVal :=
  fun _ => .pdict [("country", .pdict [("iso_code", .pstr "XX")])]

/-- A well-formed lookup result with only a `city` record. -/
def geoCityDb : String → PyVal :=
  fun _ => .pdict [("city", .pdict [("names", .pdict [("en", .pstr "Paris")])])]

/-! ### Result Writer: directory reset (`save_proxies`, lines 226-241) -/

/-- The tuple `dirs_to_delete` of line 226. -/
def dirs_to_delete : List String :=
  ["proxies", "proxies_anonymous", "proxies_geolocation", "proxies_geolocation_anonymous"]

/-- Python truthiness of `self.MMDB : Optional[str]`. -/
def mmdbTruthy : Option String → Bool
  | Option.none => false
  | some s => !(s == "")

/-- The tuple `dirs_to_create` of line 237. -/
def dirs_to_create (mmdb : Option String) : List String :=
  if mmdbTruthy mmdb then dirs_to_delete else ["proxies", "proxies_anonymous"]

/-- Directory existence after `save_proxies`' reset phase: every
directory of `dirs_to_delete` is removed (`rmtree`, with
`FileNotFoundError` ignored), then every directory of `dirs_to_create`
is created empty (`mkdir`).  `pre` is the prior existence state. -/
def save_proxies_dirs (mmdb : Option String) (pre : String → Bool) : String → Bool :=
  fun d =>
    let afterDelete := if d ∈ dirs_to_delete then false else pre d
    if d ∈ dirs_to_create mmdb then true else afterDelete

/-- A prior filesystem state in which all four output directories
already exist. -/
def preAllExist : String → Bool := fun _ => true

/-! ### Result Writer: sorting (`sort_proxies` and `_get_sorting_key`) -/

/-- Python `int()` on the address components that occur in registry
keys: after stripping whitespace the text must be a nonempty run of
decimal digits; `ValueError` is `none`.  (Signs and underscore
separators, which `int()` also accepts, cannot reach valid keys.) -/
def pyInt? (s : String) : Option Nat :=
  let t := pyStrip s
  if !t.isEmpty && t.toList.all Char.isDigit then some (digitsVal t.toList) else Option.none

/-- The sorting key of `_get_sorting_key` (lines 291-294):
`x[0].replace(":", ".").split(".")` mapped through `int`, as a tuple.
`none` models a raised `ValueError`. -/
def _get_sorting_key (x : String × Option String) : Option (List Nat) :=
  (pySplit '.' (pyReplace x.1 ":" ".")).mapM pyInt?

/-- Python's `≤` on integer tuples: lexicographic on the components,
with a shorter tuple preceding any extension of it. -/
def keyLE : List Nat → List Nat → Bool
  | [], _ => true
  | _ :: _, [] => false
  | x :: xs, y :: ys => if x < y then true else if y < x then false else keyLE xs ys

/-- Ordering of registry entries under `_get_sorting_key`; the `getD`
default is irrelevant because `sort_proxies` sorts only when every key
is defined. -/
def entry_le (a b : String × Option String) : Prop :=
  keyLE ((_get_sorting_key a).getD []) ((_get_sorting_key b).getD []) = true

instance : DecidableRel entry_le := fun _ _ =>
  inferInstanceAs (Decidable (_ = true))

/-- One protocol's slice of `sort_proxies` (line 220):
`sorted(proxies.items(), key=self._get_sorting_key)`.  Python's `sorted`
is an ascending stable sort, which insertion sort under a total
transitive relation reproduces exactly; if `int()` raises on any key the
whole call raises, modelled as `none`. -/
def sort_proxies (m : Reg) : Option Reg :=
  if m.all (fun x => (_get_sorting_key x).isSome) then
    some (List.insertionSort entry_le m)
  else Option.none

/-! ### Result Writer: file appends (`save_proxies`, lines 243-264) -/

/-- File path `proxies/{proto}.txt`. -/
def proxies_path (proto : String) : String := "proxies/" ++ proto ++ ".txt"

/-- File path `proxies_anonymous/{proto}.txt`. -/
def proxies_anonymous_path (proto : String) : String :=
  "proxies_anonymous/" ++ proto ++ ".txt"

/-- File path `proxies_geolocation/{proto}.txt`. -/
def proxies_geolocation_path (proto : String) : String :=
  "proxies_geolocation/" ++ proto ++ ".txt"

/-- File path `proxies_geolocation_anonymous/{proto}.txt`. -/
def proxies_geolocation_anonymous_path (proto : String) : String :=
  "proxies_geolocation_anonymous/" ++ proto ++ ".txt"

/-- The `(file, line)` appends of the plain section (lines 244-250), in
order: every candidate goes to the base file; a candidate additionally
goes to the anonymous file exactly when
`exit_node != proxy.split(":")[0]` (note `None` differs from every
string). -/
def plain_writes (proto : String) : Reg → List (String × String)
  | [] => []
  | kv :: rest =>
    (proxies_path proto, kv.1) ::
      ((if kv.2 ≠ some (py_split_head kv.1) then [(proxies_anonymous_path proto, kv.1)] else []) ++
        plain_writes proto rest)

/-- The `(file, line)` appends of the geolocation section
(lines 253-264) for one protocol, for a run in which no append is
interrupted: each line is the candidate followed by its geolocation
suffix, and the anonymity predicate is the same as in the plain
section.  A raised exception inside `get_geolocation` aborts the run,
modelled as `Except.error`. -/
def geo_writes (proto : String) (db : String → PyVal) : Reg → Except Unit (List (String × String))
  | [] => .ok []
  | kv :: rest =>
    match get_geolocation kv.2 db with
    | .error e => .error e
    | .ok suf =>
      match geo_writes proto db rest with
      | .error e => .error e
      | .ok tail =>
        .ok (((proxies_geolocation_path proto, kv.1 ++ suf) ::
          (if kv.2 ≠ some (py_split_head kv.1) then
            [(proxies_geolocation_anonymous_path proto, kv.1 ++ suf)]
          else [])) ++ tail)

/-! ### Proxy Validator: the concurrency ceiling (lines 50 and 153-161)

`check_proxy` wraps its whole network interaction in
`async with self.sem`, an `asyncio.Semaphore(max_connections)` shared by
all probe tasks of all protocols.  The abstract state of one probe task:

* `pending` — task created, the `async with self.sem` not yet entered;
* `waiting` — suspended in the semaphore acquire;
* `holding` — slot held: the `ClientSession` tunnel is open (lines
  155-161);
* `done` — the `async with` block exited, on any path (success or
  exception), releasing the slot.

The scheduler may interleave tasks arbitrarily; acquiring requires a
free slot for the one shared capacity `cap`. -/

/-- Phase of one probe task. -/
inductive ProbePhase where
  | pending
  | waiting
  | holding
  | done
deriving DecidableEq

/-- Whether a probe task currently holds a semaphore slot. -/
def isHolding : ProbePhase → Bool
  | .holding => true
  | _ => false

/-- Number of probes currently holding a semaphore slot, i.e. with an
open tunnel. -/
def holdingCount (s : List ProbePhase) : Nat := s.countP isHolding

/-- One scheduler step of the probe pool under semaphore capacity
`cap`. -/
inductive SemStep (cap : Nat) : List ProbePhase → List ProbePhase → Prop where
  | start (l r : List ProbePhase) :
      SemStep cap (l ++ ProbePhase.pending :: r) (l ++ ProbePhase.waiting :: r)
  | acquire (l r : List ProbePhase)
      (h : holdingCount (l ++ ProbePhase.waiting :: r) < cap) :
      SemStep cap (l ++ ProbePhase.waiting :: r) (l ++ ProbePhase.holding :: r)
  | release (l r : List ProbePhase) :
      SemStep cap (l ++ ProbePhase.holding :: r) (l ++ ProbePhase.done :: r)

/-- States reachable by `check_all_proxies` from `n` freshly scheduled
probe tasks. -/
def SemReachable (cap n : Nat) (s : List ProbePhase) : Prop :=
  Relation.ReflTransGen (SemStep cap) (List.replicate n ProbePhase.pending) s

/-- The constructor default `max_connections: int = 950` (line 31). -/
def default_max_connections : Nat := 950

/-! ### Constructor source normalisation (`__init__`, lines 54-68) -/

/-- The `http_sources`/`socks4_sources`/`socks5_sources` argument of the
constructor: `None`, a plain string, or any other iterable given by its
elements in iteration order. -/
inductive SourcesArg where
  | noneArg
  | strArg (s : String)
  | collArg (elems : List String)

/-- Python truthiness of a sources argument (the `if sources` filter of
line 63). -/
def SourcesArg.truthy : SourcesArg → Bool
  | .noneArg => false
  | .strArg s => !(s == "")
  | .collArg l => !l.isEmpty

/-- The conversion of lines 55-57 applied to a truthy argument:
`(sources,) if isinstance(sources, str) else frozenset(sources)`; a
falsy argument is filtered out.  The frozenset is modelled as the
duplicate-free list of first occurrences. -/
def SourcesArg.normalize : SourcesArg → Option (List String)
  | a =>
    if a.truthy then
      match a with
      | .strArg s => some [s]
      | .collArg l => some l.dedup
      | .noneArg => Option.none
    else Option.none

/-- The `self.SOURCES` dict comprehension of lines 54-64. -/
def mk_SOURCES (http socks4 socks5 : SourcesArg) : List (String × List String) :=
  [("http", http), ("socks4", socks4), ("socks5", socks5)].filterMap
    (fun pr => (SourcesArg.normalize pr.2).map (fun l => (pr.1, l)))

/-! ### Helper lemmas -/

theorem mem_dictSet {m : Reg} {k : String} {v : Option String} {kv : String × Option String}
    (h : kv ∈ dictSet m k v) : kv.1 = k ∨ kv ∈ m := by
  unfold dictSet at h
  split at h
  · rcases List.mem_map.mp h with ⟨kv', hkv', heq⟩
    by_cases hk : (kv'.1 == k) = true
    · left
      rw [if_pos hk] at heq
      rw [← heq]
    · right
      rw [if_neg hk] at heq
      rwa [← heq]
  · rcases List.mem_append.mp h with h' | h'
    · exact Or.inr h'
    · left
      rw [List.mem_singleton.mp h']

theorem parse_proxy_line_host {proto line proxy : String}
    (h : parse_proxy_line proto line = some proxy) :
    is_ipv4 (py_split_head proxy) = true := by
  simp only [parse_proxy_line] at h
  split at h
  · cases h
    assumption
  · cases h

theorem fetch_source_lines_host_ipv4 (proto : String) (lines : List String) (m : Reg)
    (hm : ∀ kv ∈ m, is_ipv4 (py_split_head kv.1) = true) :
    ∀ kv ∈ fetch_source_lines proto lines m, is_ipv4 (py_split_head kv.1) = true := by
  induction lines generalizing m with
  | nil => exact hm
  | cons line rest ih =>
    intro kv hkv
    refine ih _ ?_ kv hkv
    intro kv' hkv'
    cases hp : parse_proxy_line proto line with
    | none =>
      simp only [hp] at hkv'
      exact hm kv' hkv'
    | some proxy =>
      simp only [hp] at hkv'
      rcases mem_dictSet hkv' with h1 | h1
      · rw [h1]
        exact parse_proxy_line_host hp
      · exact hm kv' h1

theorem check_proxy_step_keys (probe : String → Option String) (m : Reg) (p : String) :
    ∀ kv ∈ check_proxy_step probe m p, kv.1 ∈ m.map Prod.fst := by
  intro kv hkv
  unfold check_proxy_step at hkv
  cases hp : probe p with
  | none =>
    rw [hp] at hkv
    exact List.mem_map_of_mem Prod.fst (List.mem_of_mem_filter hkv)
  | some exit_node =>
    rw [hp] at hkv
    rcases List.mem_map.mp hkv with ⟨kv', hkv', heq⟩
    by_cases hk : (kv'.1 == p) = true
    · rw [if_pos hk] at heq
      have : kv.1 = kv'.1 := by
        rw [← heq]
        exact (eq_of_beq hk).symm
      rw [this]
      exact List.mem_map_of_mem Prod.fst hkv'
    · rw [if_neg hk] at heq
      rw [← heq]
      exact List.mem_map_of_mem Prod.fst hkv'

theorem check_proxy_step_length (probe : String → Option String) (m : Reg) (p : String) :
    (check_proxy_step probe m p).length ≤ m.length := by
  unfold check_proxy_step
  cases probe p with
  | none => exact List.length_filter_le _ m
  | some exit_node => exact Nat.le_of_eq (List.length_map m _)

theorem keyLE_total : ∀ a b : List Nat, keyLE a b = true ∨ keyLE b a = true
  | [], _ => Or.inl rfl
  | _ :: _, [] => Or.inr rfl
  | x :: xs, y :: ys => by
    by_cases hxy : x < y
    · exact Or.inl (by simp [keyLE, hxy])
    · by_cases hyx : y < x
      · exact Or.inr (by simp [keyLE, hyx])
      · rcases keyLE_total xs ys with h | h
        · exact Or.inl (by simp [keyLE, hxy, hyx, h])
        · exact Or.inr (by simp [keyLE, hxy, hyx, h])

theorem keyLE_trans :
    ∀ a b c : List Nat, keyLE a b = true → keyLE b c = true → keyLE a c = true
  | [], _, _, _, _ => rfl
  | _ :: _, [], _, h₁, _ => by cases h₁
  | _ :: _, _ :: _, [], _, h₂ => by cases h₂
  | x :: xs, y :: ys, z :: zs, h₁, h₂ => by
    simp only [keyLE] at h₁ h₂ ⊢
    by_cases hxy : x < y
    · have hxz : x < z := by
        by_cases hyz : y < z
        · exact Nat.lt_trans hxy hyz
        · by_cases hzy : z < y
          · simp [hyz, hzy] at h₂
          · omega
      simp [hxz]
    · by_cases hyx : y < x
      · simp [hxy, hyx] at h₁
      · have hxy' : x = y := by omega
        subst hxy'
        by_cases hyz : x < z
        · simp [hyz]
        · by_cases hzy : z < x
          · simp [hyz, hzy] at h₂
          · simp only [hxy, hyx, if_false] at h₁
            simp only [hyz, hzy, if_false] at h₂
            simp [hyz, hzy, keyLE_trans xs ys zs h₁ h₂]

instance : IsTotal (String × Option String) entry_le :=
  ⟨fun a b => keyLE_total _ _⟩

instance : IsTrans (String × Option String) entry_le :=
  ⟨fun _ _ _ h₁ h₂ => keyLE_trans _ _ _ h₁ h₂⟩

theorem append_ne_of_get_ne (i : Nat) {p q a b : List Char}
    (hp : i < p.length) (hq : i < q.length) (h : p.get? i ≠ q.get? i) :
    p ++ a ≠ q ++ b := by
  intro hEq
  apply h
  calc p.get? i = (p ++ a).get? i := (List.get?_append hp).symm
    _ = (q ++ b).get? i := by rw [hEq]
    _ = q.get? i := List.get?_append hq

theorem string_ne_of_data_ne {s t : String} (h : s.data ≠ t.data) : s ≠ t := by
  intro hEq
  exact h (by rw [hEq])

theorem proxies_path_ne_anonymous (proto : String) :
    proxies_path proto ≠ proxies_anonymous_path proto := by
  apply string_ne_of_data_ne
  unfold proxies_path proxies_anonymous_path
  simp only [String.data_append, List.append_assoc]
  exact append_ne_of_get_ne 7 (by decide) (by decide) (by decide)

theorem geo_path_ne_anonymous (proto : String) :
    proxies_geolocation_path proto ≠ proxies_geolocation_anonymous_path proto := by
  apply string_ne_of_data_ne
  unfold proxies_geolocation_path proxies_geolocation_anonymous_path
  simp only [String.data_append, List.append_assoc]
  exact append_ne_of_get_ne 19 (by decide) (by decide) (by decide)

theorem mem_plain_writes_anon {proto : String} {m : Reg} {line : String}
    (h : (proxies_anonymous_path proto, line) ∈ plain_writes proto m) :
    ∃ v, (line, v) ∈ m ∧ v ≠ some (py_split_head line) := by
  induction m with
  | nil => cases h
  | cons kv rest ih =>
    simp only [plain_writes, List.mem_cons, List.mem_append] at h
    rcases h with h | h | h
    · exact absurd (congrArg Prod.fst h) (proxies_path_ne_anonymous proto).symm
    · split at h
      · rcases List.mem_singleton.mp h with h'
        have hline : line = kv.1 := congrArg Prod.snd h'
        subst hline
        exact ⟨kv.2, List.mem_cons_self _ _, by assumption⟩
      · cases h
    · rcases ih h with ⟨v, hv, hne⟩
      exact ⟨v, List.mem_cons_of_mem _ hv, hne⟩

theorem anon_mem_plain_writes {proto : String} {m : Reg} {k : String} {v : Option String}
    (hmem : (k, v) ∈ m) (hne : v ≠ some (py_split_head k)) :
    (proxies_anonymous_path proto, k) ∈ plain_writes proto m := by
  induction m with
  | nil => cases hmem
  | cons kv rest ih =>
    simp only [plain_writes, List.mem_cons, List.mem_append]
    rcases List.mem_cons.mp hmem with h | h
    · right; left
      rw [← h]
      simp only [hne, ne_eq, not_false_eq_true, if_true]
      exact List.mem_singleton.mpr rfl
    · right; right
      exact ih h

theorem mem_geo_writes_anon {proto : String} {db : String → PyVal} {m : Reg}
    {ws : List (String × String)} {line : String}
    (hws : geo_writes proto db m = .ok ws)
    (h : (proxies_geolocation_anonymous_path proto, line) ∈ ws) :
    ∃ k v suf, (k, v) ∈ m ∧ v ≠ some (py_split_head k) ∧
      get_geolocation v db = .ok suf ∧ line = k ++ suf := by
  induction m generalizing ws with
  | nil =>
    cases hws
    cases h
  | cons kv rest ih =>
    unfold geo_writes at hws
    cases hg : get_geolocation kv.2 db with
    | error e => rw [hg] at hws; cases hws
    | ok suf =>
      rw [hg] at hws
      cases ht : geo_writes proto db rest with
      | error e => rw [ht] at hws; cases hws
      | ok tail =>
        rw [ht] at hws
        cases hws
        simp only [List.mem_append, List.mem_cons] at h
        rcases h with (h | h) | h
        · exact absurd (congrArg Prod.fst h) (geo_path_ne_anonymous proto).symm
        · split at h
          · rcases List.mem_singleton.mp h with h'
            have hline : line = kv.1 ++ suf := congrArg Prod.snd h'
            exact ⟨kv.1, kv.2, suf, List.mem_cons_self _ _, by assumption, hg, hline⟩
          · cases h
        · rcases ih ht h with ⟨k, v, suf', hk, hv, hgeo, hline⟩
          exact ⟨k, v, suf', List.mem_cons_of_mem _ hk, hv, hgeo, hline⟩

theorem anon_mem_geo_writes {proto : String} {db : String → PyVal} {m : Reg}
    {ws : List (String × String)} {k suf : String} {v : Option String}
    (hws : geo_writes proto db m = .ok ws)
    (hmem : (k, v) ∈ m) (hne : v ≠ some (py_split_head k))
    (hgeo : get_geolocation v db = .ok suf) :
    (proxies_geolocation_anonymous_path proto, k ++ suf) ∈ ws := by
  induction m generalizing ws with
  | nil => cases hmem
  | cons kv rest ih =>
    unfold geo_writes at hws
    cases hg : get_geolocation kv.2 db with
    | error e => rw [hg] at hws; cases hws
    | ok suf' =>
      rw [hg] at hws
      cases ht : geo_writes proto db rest with
      | error e => rw [ht] at hws; cases hws
      | ok tail =>
        rw [ht] at hws
        cases hws
        simp only [List.mem_append, List.mem_cons]
        rcases List.mem_cons.mp hmem with h | h
        · left; right
          have hk : kv.1 = k := (congrArg Prod.fst h).symm
          have hv : kv.2 = v := (congrArg Prod.snd h).symm
          have hsuf : suf' = suf := by
            rw [hv, hgeo] at hg
            exact (Except.ok.inj hg).symm
          rw [hk, hv, hsuf]
          simp only [hne, ne_eq, not_false_eq_true, if_true]
          exact List.mem_singleton.mpr rfl
        · right
          exact ih ht h

theorem holdingCount_middle (l r : List ProbePhase) (p : ProbePhase) :
    holdingCount (l ++ p :: r) =
      holdingCount l + holdingCount r + (if isHolding p then 1 else 0) := by
  unfold holdingCount
  rw [List.countP_append, List.countP_cons]
  omega

theorem semStep_holding {cap : Nat} {s t : List ProbePhase} (h : SemStep cap s t)
    (hs : holdingCount s ≤ cap) : holdingCount t ≤ cap := by
  cases h with
  | start l r =>
    rw [holdingCount_middle] at hs ⊢
    simp [isHolding] at hs ⊢
    omega
  | acquire l r hlt =>
    rw [holdingCount_middle] at hlt ⊢
    simp [isHolding] at hlt ⊢
    omega
  | release l r =>
    rw [holdingCount_middle] at hs ⊢
    simp [isHolding] at hs ⊢
    omega

theorem holdingCount_replicate_pending (n : Nat) :
    holdingCount (List.replicate n ProbePhase.pending) = 0 := by
  induction n with
  | zero => rfl
  | succ k ih =>
    unfold holdingCount at ih ⊢
    rw [List.replicate_succ, List.countP_cons]
    simp [isHolding, ih]

theorem assoc_unique {m : Reg} (hnd : (m.map Prod.fst).Nodup) {k : String}
    {v w : Option String} (hv : (k, v) ∈ m) (hw : (k, w) ∈ m) : v = w := by
  induction m with
  | nil => cases hv
  | cons kv rest ih =>
    rw [List.map_cons, List.nodup_cons] at hnd
    rcases List.mem_cons.mp hv with h1 | h1 <;> rcases List.mem_cons.mp hw with h2 | h2
    · rw [← h1] at h2
      exact (congrArg Prod.snd h2).symm
    · have hk : kv.1 = k := (congrArg Prod.fst h1).symm
      have hmem : kv.1 ∈ rest.map Prod.fst := by
        rw [hk]
        exact List.mem_map_of_mem Prod.fst h2
      exact absurd hmem hnd.1
    · have hk : kv.1 = k := (congrArg Prod.fst h2).symm
      have hmem : kv.1 ∈ rest.map Prod.fst := by
        rw [hk]
        exact List.mem_map_of_mem Prod.fst h1
      exact absurd hmem hnd.1
    · exact ih hnd.2 h1 h2

theorem summary_rows_error (counts : String → Nat) (proto : String) (ps : Reg) :
    ∀ (registry : List (String × Reg)), (proto, ps) ∈ registry → counts proto = 0 →
      summary_rows counts registry = Except.error ()
  | [], hmem, _ => by cases hmem
  | pr :: rest, hmem, hzero => by
    unfold summary_rows
    rcases List.mem_cons.mp hmem with h | h
    · have hc : counts pr.1 = 0 := by
        rw [← h]
        exact hzero
      unfold summary_percentage
      rw [hc]
      simp
    · cases hp : summary_percentage pr.2.length (counts pr.1) with
      | error e =>
        cases e
        rfl
      | ok q =>
        rw [summary_rows_error counts proto ps rest h hzero]

theorem countryVal_total {g : PyVal}
    (h1 : (g.pyGet "country").truthy = true → HasNamesEn (g.pyGet "country"))
    (h2 : (g.pyGet "country").truthy = false → (g.pyGet "continent").truthy = true →
      HasNamesEn (g.pyGet "continent")) :
    ∃ w, countryVal g = Except.ok w ∧
      (g.pyGet "country" = PyVal.pnone → g.pyGet "continent" = PyVal.pnone →
        pyRender w = "None") := by
  cases hc : (g.pyGet "country").truthy with
  | true =>
    rcases h1 hc with ⟨w, hw⟩
    refine ⟨w, ?_, ?_⟩
    · simpa [countryVal, hc] using hw
    · intro hcp _
      rw [hcp] at hc
      cases hc
  | false =>
    cases hk : (g.pyGet "continent").truthy with
    | true =>
      rcases h2 hc hk with ⟨w, hw⟩
      refine ⟨w, ?_, ?_⟩
      · simpa [countryVal, hc, hk] using hw
      · intro _ hkp
        rw [hkp] at hk
        cases hk
    | false =>
      refine ⟨g.pyGet "continent", ?_, ?_⟩
      · simp [countryVal, hc, hk]
      · intro _ hkp
        rw [hkp]
        rfl

theorem regionVal_total {g : PyVal}
    (h3 : (g.pyGet "subdivisions").truthy = true →
      ∃ x, (g.pyGet "subdivisions").index0 = Except.ok x ∧ HasNamesEn x) :
    ∃ w, regionVal g = Except.ok w ∧
      (g.pyGet "subdivisions" = PyVal.pnone → pyRender w = "None") := by
  cases hr : (g.pyGet "subdivisions").truthy with
  | true =>
    rcases h3 hr with ⟨x, hx, w, hw⟩
    refine ⟨w, ?_, ?_⟩
    · simpa [regionVal, hr, hx] using hw
    · intro hrp
      rw [hrp] at hr
      cases hr
  | false =>
    refine ⟨g.pyGet "subdivisions", ?_, ?_⟩
    · simp [regionVal, hr]
    · intro hrp
      rw [hrp]
      rfl

theorem cityVal_total {g : PyVal}
    (h4 : (g.pyGet "city").truthy = true → HasNamesEn (g.pyGet "city")) :
    ∃ w, cityVal g = Except.ok w ∧
      (g.pyGet "city" = PyVal.pnone → pyRender w = "None") := by
  cases hc : (g.pyGet "city").truthy with
  | true =>
    rcases h4 hc with ⟨w, hw⟩
    refine ⟨w, ?_, ?_⟩
    · simpa [cityVal, hc] using hw
    · intro hcp
      rw [hcp] at hc
      cases hc
  | false =>
    refine ⟨g.pyGet "city", ?_, ?_⟩
    · simp [cityVal, hc]
    · intro hcp
      rw [hcp]
      rfl

theorem normalize_none_iff (a : SourcesArg) :
    SourcesArg.normalize a = Option.none ↔ a.truthy = false := by
  cases a with
  | noneArg => simp [SourcesArg.normalize, SourcesArg.truthy]
  | strArg s =>
    cases hsb : (s == "") <;>
      simp [SourcesArg.normalize, SourcesArg.truthy, hsb]
  | collArg l =>
    cases hle : l.isEmpty <;>
      simp [SourcesArg.normalize, SourcesArg.truthy, hle]

theorem normalize_some_truthy {a : SourcesArg} {l : List String}
    (h : SourcesArg.normalize a = some l) : a.truthy = true := by
  cases ht : a.truthy with
  | true => rfl
  | false =>
    rw [(normalize_none_iff a).mpr ht] at h
    cases h

/-! ## The claims -/

/-- C1, counterexample: `fetch_source` validates only the text before
the first colon, so a 200-status source whose body is the single line
`"1.2.3.4"` inserts the bare key `"1.2.3.4"` into the registry — an
address key that is not a valid IPv4 host followed by a colon and a
port, refuting the claimed invariant as stated. -/
theorem c1_counterexample :
    fetch_all_sources_model "http" [(200, ["1.2.3.4"])] = [("1.2.3.4", Option.none)] ∧
    spec_isIPv4HostPort "1.2.3.4" = false := by
  exact ⟨by decide, by decide⟩

/-- C1 (amended): after `fetch_all_sources` completes, every address key
of the per-protocol registry has a host portion — the text before the
first colon — that is a syntactically valid dotted-quad IPv4 address; a
trailing colon-and-port is not guaranteed (a bare valid IPv4 line is
inserted without one, and the port text is never validated). -/
theorem c1_fetch_host_ipv4 (proto : String) (bodies : List (Nat × List String)) :
    ∀ kv ∈ fetch_all_sources_model proto bodies,
      is_ipv4 (py_split_head kv.1) = true := by
  unfold fetch_all_sources_model
  have main : ∀ (bs : List (Nat × List String)) (m : Reg),
      (∀ kv ∈ m, is_ipv4 (py_split_head kv.1) = true) →
      ∀ kv ∈ bs.foldl (fun m sb => fetch_source_model sb.1 proto sb.2 m) m,
        is_ipv4 (py_split_head kv.1) = true := by
    intro bs
    induction bs with
    | nil => exact fun m hm => hm
    | cons sb rest ih =>
      intro m hm
      refine ih _ ?_
      show ∀ kv ∈ fetch_source_model sb.1 proto sb.2 m, is_ipv4 (py_split_head kv.1) = true
      unfold fetch_source_model
      split
      · exact fetch_source_lines_host_ipv4 proto sb.2 m hm
      · exact hm
  exact main bodies [] (fun kv hkv => by cases hkv)

/-- C1 witness: the amended invariant evaluated on a concrete fetch. -/
theorem c1_fetch_host_ipv4_witness :
    is_ipv4 (py_split_head "1.2.3.4:8080") = true :=
  c1_fetch_host_ipv4 "http" [(200, ["1.2.3.4:8080"])] ("1.2.3.4:8080", Option.none)
    (by decide)

/-- C2, counterexample: with geolocation disabled (`MMDB = None`) the
reset phase of `save_proxies` still deletes `proxies_geolocation` — the
`rmtree` loop of lines 232-236 runs over all four directories
unconditionally — so a pre-existing geolocation directory is not left
unchanged, refuting the claim as stated. -/
theorem c2_counterexample :
    mmdbTruthy Option.none = false ∧
    preAllExist "proxies_geolocation" = true ∧
    save_proxies_dirs Option.none preAllExist "proxies_geolocation" = false := by
  exact ⟨rfl, rfl, by decide⟩

/-- C2 (amended): when geolocation is disabled, `save_proxies` removes
all four output directories (when present) but recreates only the two
plain ones, so both geolocation directories end up absent; directories
outside the four are untouched. -/
theorem c2_dirs_amended (mmdb : Option String) (pre : String → Bool)
    (hmmdb : mmdbTruthy mmdb = false) :
    save_proxies_dirs mmdb pre "proxies" = true ∧
    save_proxies_dirs mmdb pre "proxies_anonymous" = true ∧
    save_proxies_dirs mmdb pre "proxies_geolocation" = false ∧
    save_proxies_dirs mmdb pre "proxies_geolocation_anonymous" = false ∧
    ∀ d, d ∉ dirs_to_delete → save_proxies_dirs mmdb pre d = pre d := by
  have hcreate : dirs_to_create mmdb = ["proxies", "proxies_anonymous"] := by
    unfold dirs_to_create
    rw [hmmdb]
    simp
  refine ⟨?_, ?_, ?_, ?_, ?_⟩
  · simp only [save_proxies_dirs, hcreate]
    rw [if_pos (by decide)]
  · simp only [save_proxies_dirs, hcreate]
    rw [if_pos (by decide)]
  · simp only [save_proxies_dirs, hcreate]
    rw [if_neg (by decide), if_pos (by decide)]
  · simp only [save_proxies_dirs, hcreate]
    rw [if_neg (by decide), if_pos (by decide)]
  · intro d hd
    have hdc : d ∉ dirs_to_create mmdb := by
      rw [hcreate]
      intro hc
      apply hd
      unfold dirs_to_delete
      simp only [List.mem_cons, List.not_mem_nil, or_false] at hc ⊢
      tauto
    simp only [save_proxies_dirs]
    rw [if_neg hdc, if_neg hd]

/-- C2 witness: the amended statement evaluated with geolocation
disabled and all four directories pre-existing. -/
theorem c2_dirs_amended_witness :
    save_proxies_dirs Option.none preAllExist "proxies" = true ∧
    save_proxies_dirs Option.none preAllExist "proxies_anonymous" = true ∧
    save_proxies_dirs Option.none preAllExist "proxies_geolocation" = false ∧
    save_proxies_dirs Option.none preAllExist "proxies_geolocation_anonymous" = false ∧
    ∀ d, d ∉ dirs_to_delete → save_proxies_dirs Option.none preAllExist d = preAllExist d :=
  c2_dirs_amended Option.none preAllExist rfl

/-- C6: a 200-status source whose body is the three given lines, fetched
for protocol http, inserts exactly the candidates `1.2.3.4:8080` and
`5.6.7.8:3128` (scheme prefixes stripped, whitespace trimmed, host
validated as IPv4, the failing line silently discarded). -/
theorem c6_fetch_scenario :
    fetch_source_model 200 "http" ["1.2.3.4:8080", "bad-entry", "http://5.6.7.8:3128"] [] =
      [("1.2.3.4:8080", Option.none), ("5.6.7.8:3128", Option.none)] := by
  decide

/-- C7: validation never grows the registry — every probe either
overwrites its own key's outcome or pops the key — so after
`check_all_proxies` the survivor count is at most the pre-validation
count and every surviving key was already present. -/
theorem c7_validation_never_grows (probe : String → Option String) (order : List String)
    (m : Reg) :
    (check_all_proxies probe order m).length ≤ m.length ∧
    ∀ kv ∈ check_all_proxies probe order m, kv.1 ∈ m.map Prod.fst := by
  unfold check_all_proxies
  induction order generalizing m with
  | nil => exact ⟨Nat.le_refl _, fun kv hkv => List.mem_map_of_mem Prod.fst hkv⟩
  | cons p rest ih =>
    rcases ih (check_proxy_step probe m p) with ⟨h1, h2⟩
    refine ⟨Nat.le_trans h1 (check_proxy_step_length probe m p), ?_⟩
    intro kv hkv
    rcases List.mem_map.mp (h2 kv hkv) with ⟨kv', hkv', heq⟩
    rw [← heq]
    exact check_proxy_step_keys probe m p kv' hkv'

/-- C7 witness: the bound evaluated on a concrete one-candidate run. -/
theorem c7_validation_never_grows_witness :
    (check_all_proxies (fun _ => some "9.9.9.9") ["1.2.3.4:80"]
        [("1.2.3.4:80", Option.none)]).length ≤ 1 ∧
    "1.2.3.4:80" ∈ ([("1.2.3.4:80", Option.none)] : Reg).map Prod.fst :=
  ⟨(c7_validation_never_grows (fun _ => some "9.9.9.9") ["1.2.3.4:80"]
      [("1.2.3.4:80", Option.none)]).1,
   (c7_validation_never_grows (fun _ => some "9.9.9.9") ["1.2.3.4:80"]
      [("1.2.3.4:80", Option.none)]).2 ("1.2.3.4:80", some "9.9.9.9") (by decide)⟩

/-- C8: the summary percentage of `main` is the survivor count divided
by the protocol's pre-probe count, and the division is unguarded — a
protocol present in the registry with zero fetched candidates raises
`ZeroDivisionError` (modelled as `Except.error`). -/
theorem c8_percentage_div_zero (registry : List (String × Reg)) (counts : String → Nat)
    (proto : String) (ps : Reg) (hmem : (proto, ps) ∈ registry)
    (hzero : counts proto = 0) :
    summary_rows counts registry = Except.error () ∧
    ∀ working total : Nat, total ≠ 0 →
      summary_percentage working total = Except.ok ((working : ℚ) / (total : ℚ) * 100) := by
  refine ⟨summary_rows_error counts proto ps registry hmem hzero, ?_⟩
  intro working total ht
  unfold summary_percentage
  rw [if_neg ht]

/-- C8 witness: a protocol with zero fetched candidates aborts the
summary. -/
theorem c8_percentage_div_zero_witness :
    summary_rows (fun _ => 0) [("http", [])] = Except.error () ∧
    ∀ working total : Nat, total ≠ 0 →
      summary_percentage working total = Except.ok ((working : ℚ) / (total : ℚ) * 100) :=
  c8_percentage_div_zero [("http", [])] (fun _ => 0) "http" [] (by decide) rfl

/-- C3, counterexample: `get_geolocation` is not total over lookup
results — a truthy `country` record without a `names` key makes the bare
subscription `country["names"]["en"]` of line 94 raise `KeyError`
instead of rendering `None`. -/
theorem c3_counterexample :
    get_geolocation (some "1.2.3.4") geoBadDb = Except.error () := by
  rfl

/-- C3 (amended): `get_geolocation` returns the placeholder
`::None::None::None` for an absent or empty exit address and for any
non-mapping lookup result (in particular a lookup miss), and a
top-level field that is absent renders independently as the literal
`None`; but totality stops at truthy records missing their inner
`names`/`en` data (or a subdivision entry), where the function raises
`KeyError` rather than substituting `None`. -/
theorem c3_get_geolocation_amended (db : String → PyVal) :
    get_geolocation Option.none db = Except.ok "::None::None::None" ∧
    get_geolocation (some "") db = Except.ok "::None::None::None" ∧
    (∀ s, (db s).isDict = false →
      get_geolocation (some s) db = Except.ok "::None::None::None") ∧
    (∀ s, s ≠ "" → (db s).isDict = true → WfGeo (db s) →
      ∃ c r t, get_geolocation (some s) db =
          Except.ok ("::" ++ c ++ "::" ++ r ++ "::" ++ t) ∧
        ((db s).pyGet "country" = PyVal.pnone → (db s).pyGet "continent" = PyVal.pnone →
          c = "None") ∧
        ((db s).pyGet "subdivisions" = PyVal.pnone → r = "None") ∧
        ((db s).pyGet "city" = PyVal.pnone → t = "None")) := by
  refine ⟨rfl, rfl, ?_, ?_⟩
  · intro s hd
    unfold get_geolocation
    cases hsb : (s == "") with
    | true => simp [hsb]
    | false => simp [hsb, hd]
  · intro s hs hd hwf
    rcases countryVal_total hwf.1 hwf.2.1 with ⟨wc, hwc, hcnone⟩
    rcases regionVal_total hwf.2.2.1 with ⟨wr, hwr, hrnone⟩
    rcases cityVal_total hwf.2.2.2 with ⟨wt, hwt, htnone⟩
    refine ⟨pyRender wc, pyRender wr, pyRender wt, ?_, hcnone, hrnone, htnone⟩
    have hsb : (s == "") = false := beq_eq_false_iff_ne.mpr hs
    unfold get_geolocation
    simp [hsb, hd, hwc, hwr, hwt]

/-- C3 witness: the amended statement evaluated on a well-formed lookup
result carrying only a `city` record. -/
theorem c3_get_geolocation_amended_witness :
    ∃ c r t, get_geolocation (some "1.2.3.4") geoCityDb =
        Except.ok ("::" ++ c ++ "::" ++ r ++ "::" ++ t) ∧
      ((geoCityDb "1.2.3.4").pyGet "country" = PyVal.pnone →
        (geoCityDb "1.2.3.4").pyGet "continent" = PyVal.pnone → c = "None") ∧
      ((geoCityDb "1.2.3.4").pyGet "subdivisions" = PyVal.pnone → r = "None") ∧
      ((geoCityDb "1.2.3.4").pyGet "city" = PyVal.pnone → t = "None") :=
  (c3_get_geolocation_amended geoCityDb).2.2.2 "1.2.3.4" (by decide) rfl
    ⟨fun h => absurd h (by decide),
     fun _ h => absurd h (by decide),
     fun h => absurd h (by decide),
     fun _ => ⟨PyVal.pstr "Paris", rfl⟩⟩

/-- C4: `sort_proxies` orders the surviving candidates of a protocol
ascending by the numeric `(octet1, octet2, octet3, octet4, port)` tuple —
`entry_le` compares the `_get_sorting_key` integer tuples componentwise
as integers, not lexicographically on text — and the result is a
permutation of the input. -/
theorem c4_sort_numeric (m m' : Reg) (h : sort_proxies m = some m') :
    List.Sorted entry_le m' ∧ m'.Perm m := by
  unfold sort_proxies at h
  split at h
  · cases h
    exact ⟨List.sorted_insertionSort entry_le m, List.perm_insertionSort entry_le m⟩
  · cases h

/-- C4 witness: sorting the two-candidate registry places
`2.1.1.1:80` before `10.1.1.1:80` (numeric order; lexicographic order
would invert this), and the result is sorted and a permutation. -/
theorem c4_sort_numeric_witness :
    List.Sorted entry_le
      [("2.1.1.1:80", some "2.1.1.1"), ("10.1.1.1:80", some "10.1.1.1")] ∧
    List.Perm [("2.1.1.1:80", some "2.1.1.1"), ("10.1.1.1:80", some "10.1.1.1")]
      [("10.1.1.1:80", some "10.1.1.1"), ("2.1.1.1:80", some "2.1.1.1")] :=
  c4_sort_numeric [("10.1.1.1:80", some "10.1.1.1"), ("2.1.1.1:80", some "2.1.1.1")]
    [("2.1.1.1:80", some "2.1.1.1"), ("10.1.1.1:80", some "10.1.1.1")] (by decide)

/-- C5: for every line emitted by `save_proxies`, a candidate appears in
an anonymous-tier file exactly when its recorded exit address differs
from its own host portion (the text before the first colon): the plain
anonymous file contains the candidate's address iff its exit node
differs from its host, every line of the geolocation anonymous file
belongs to a candidate whose stored outcome differs from its host, and
every such candidate's geolocation line is in that file. -/
theorem c5_anonymous_iff (proto : String) (db : String → PyVal) (m : Reg)
    (hnd : (m.map Prod.fst).Nodup) (k e : String) (hmem : (k, some e) ∈ m) :
    ((proxies_anonymous_path proto, k) ∈ plain_writes proto m ↔ e ≠ py_split_head k) ∧
    ∀ ws, geo_writes proto db m = Except.ok ws →
      (∀ line, (proxies_geolocation_anonymous_path proto, line) ∈ ws →
        ∃ k' v' suf, (k', v') ∈ m ∧ v' ≠ some (py_split_head k') ∧
          get_geolocation v' db = Except.ok suf ∧ line = k' ++ suf) ∧
      (e ≠ py_split_head k → ∀ suf, get_geolocation (some e) db = Except.ok suf →
        (proxies_geolocation_anonymous_path proto, k ++ suf) ∈ ws) := by
  constructor
  · constructor
    · intro h
      rcases mem_plain_writes_anon h with ⟨v, hv, hne⟩
      have : v = some e := assoc_unique hnd hv hmem
      rw [this] at hne
      intro he
      exact hne (by rw [he])
    · intro hne
      exact anon_mem_plain_writes hmem (fun hsome => hne (Option.some.inj hsome))
  · intro ws hws
    constructor
    · intro line hline
      exact mem_geo_writes_anon hws hline
    · intro hne suf hgeo
      exact anon_mem_geo_writes hws hmem (fun hsome => hne (Option.some.inj hsome)) hgeo

/-- C5 witness: the partition predicate evaluated on a one-candidate
registry whose exit node differs from its host. -/
theorem c5_anonymous_iff_witness :
    ((proxies_anonymous_path "http", "1.2.3.4:8080") ∈
        plain_writes "http" [("1.2.3.4:8080", some "9.9.9.9")] ↔
      "9.9.9.9" ≠ py_split_head "1.2.3.4:8080") ∧
    ∀ ws, geo_writes "http" (fun _ => PyVal.pnone) [("1.2.3.4:8080", some "9.9.9.9")] =
        Except.ok ws →
      (∀ line, (proxies_geolocation_anonymous_path "http", line) ∈ ws →
        ∃ k' v' suf, (k', v') ∈ [("1.2.3.4:8080", some "9.9.9.9")] ∧
          v' ≠ some (py_split_head k') ∧
          get_geolocation v' (fun _ => PyVal.pnone) = Except.ok suf ∧ line = k' ++ suf) ∧
      ("9.9.9.9" ≠ py_split_head "1.2.3.4:8080" →
        ∀ suf, get_geolocation (some "9.9.9.9") (fun _ => PyVal.pnone) = Except.ok suf →
          (proxies_geolocation_anonymous_path "http", "1.2.3.4:8080" ++ suf) ∈ ws) :=
  c5_anonymous_iff "http" (fun _ => PyVal.pnone) [("1.2.3.4:8080", some "9.9.9.9")]
    (by decide) "1.2.3.4:8080" "9.9.9.9" (by decide)

/-- C9: the semaphore discipline of `check_proxy` — one global
`asyncio.Semaphore(max_connections)` (constructor default 950), acquired
before the probe session is opened and released on every exit path of
the `async with` block, shared by the probes of all protocols — bounds
the number of simultaneously held tunnels: in every reachable state of
the probe pool, at most `cap` probes are in the `holding` phase. -/
theorem c9_semaphore_bound (cap n : Nat) :
    default_max_connections = 950 ∧
    ∀ s, SemReachable cap n s → holdingCount s ≤ cap := by
  refine ⟨rfl, ?_⟩
  intro s h
  unfold SemReachable at h
  induction h with
  | refl =>
    rw [holdingCount_replicate_pending]
    exact Nat.zero_le cap
  | tail _ hstep ih => exact semStep_holding hstep ih

/-- C9 witness: with capacity 2 and 2 scheduled probes, the state in
which both probes hold a tunnel is reachable and satisfies the bound. -/
theorem c9_semaphore_bound_witness :
    default_max_connections = 950 ∧
    holdingCount [ProbePhase.holding, ProbePhase.holding] ≤ 2 := by
  have hreach : SemReachable 2 2 [ProbePhase.holding, ProbePhase.holding] := by
    unfold SemReachable
    have s1 : SemStep 2 [ProbePhase.pending, ProbePhase.pending]
        [ProbePhase.waiting, ProbePhase.pending] :=
      SemStep.start [] [ProbePhase.pending]
    have s2 : SemStep 2 [ProbePhase.waiting, ProbePhase.pending]
        [ProbePhase.holding, ProbePhase.pending] :=
      SemStep.acquire [] [ProbePhase.pending] (by decide)
    have s3 : SemStep 2 [ProbePhase.holding, ProbePhase.pending]
        [ProbePhase.holding, ProbePhase.waiting] :=
      SemStep.start [ProbePhase.holding] []
    have s4 : SemStep 2 [ProbePhase.holding, ProbePhase.waiting]
        [ProbePhase.holding, ProbePhase.holding] :=
      SemStep.acquire [ProbePhase.holding] [] (by decide)
    exact ((((Relation.ReflTransGen.refl.tail s1).tail s2).tail s3).tail s4)
  exact ⟨(c9_semaphore_bound 2 2).1, (c9_semaphore_bound 2 2).2 _ hreach⟩

/-- C10: at the constructor interface, a plain string passed as a
protocol's sources is one single source URL (never iterated character by
character), any other truthy iterable is deduplicated to set semantics,
and a protocol whose argument is `None` or empty is omitted from
`self.SOURCES` entirely. -/
theorem c10_sources_normalisation :
    (∀ s : String, s ≠ "" → SourcesArg.normalize (SourcesArg.strArg s) = some [s]) ∧
    (∀ l : List String, l ≠ [] →
      ∃ d, SourcesArg.normalize (SourcesArg.collArg l) = some d ∧ d.Nodup ∧
        ∀ x, x ∈ d ↔ x ∈ l) ∧
    (∀ a : SourcesArg, SourcesArg.normalize a = Option.none ↔ a.truthy = false) ∧
    (∀ http socks4 socks5 : SourcesArg,
      (("http" ∈ (mk_SOURCES http socks4 socks5).map Prod.fst) ↔ http.truthy = true) ∧
      (("socks4" ∈ (mk_SOURCES http socks4 socks5).map Prod.fst) ↔ socks4.truthy = true) ∧
      (("socks5" ∈ (mk_SOURCES http socks4 socks5).map Prod.fst) ↔ socks5.truthy = true)) := by
  refine ⟨?_, ?_, normalize_none_iff, ?_⟩
  · intro s hs
    have hsb : (s == "") = false := beq_eq_false_iff_ne.mpr hs
    simp [SourcesArg.normalize, SourcesArg.truthy, hsb]
  · intro l hl
    have hle : l.isEmpty = false := by
      cases l with
      | nil => exact absurd rfl hl
      | cons x xs => rfl
    exact ⟨l.dedup, by simp [SourcesArg.normalize, SourcesArg.truthy, hle],
      List.nodup_dedup l, fun x => List.mem_dedup⟩
  · intro http socks4 socks5
    rcases hh : SourcesArg.normalize http with _ | lh <;>
      rcases h4 : SourcesArg.normalize socks4 with _ | l4 <;>
        rcases h5 : SourcesArg.normalize socks5 with _ | l5 <;>
          refine ⟨?_, ?_, ?_⟩ <;>
            simp [mk_SOURCES, List.filterMap_cons, hh, h4, h5,
              (normalize_none_iff _).mp, normalize_some_truthy]

/-- C10 witness: the normalisation evaluated at a one-URL string, a
duplicated collection, and a constructor call with a string http
argument, an absent socks4 argument and a one-element socks5
collection. -/
theorem c10_sources_normalisation_witness :
    SourcesArg.normalize (SourcesArg.strArg "http://u") = some ["http://u"] ∧
    (∃ d, SourcesArg.normalize (SourcesArg.collArg ["a", "a"]) = some d ∧ d.Nodup ∧
      ∀ x, x ∈ d ↔ x ∈ ["a", "a"]) ∧
    (("http" ∈ (mk_SOURCES (SourcesArg.strArg "http://u") SourcesArg.noneArg
        (SourcesArg.collArg ["x"])).map Prod.fst) ↔
      (SourcesArg.strArg "http://u").truthy = true) ∧
    (("socks4" ∈ (mk_SOURCES (SourcesArg.strArg "http://u") SourcesArg.noneArg
        (SourcesArg.collArg ["x"])).map Prod.fst) ↔
      SourcesArg.noneArg.truthy = true) :=
  ⟨c10_sources_normalisation.1 "http://u" (by decide),
   c10_sources_normalisation.2.1 ["a", "a"] (by decide),
   (c10_sources_normalisation.2.2.2 (SourcesArg.strArg "http://u") SourcesArg.noneArg
      (SourcesArg.collArg ["x"])).1,
   (c10_sources_normalisation.2.2.2 (SourcesArg.strArg "http://u") SourcesArg.noneArg
      (SourcesArg.collArg ["x"])).2.1⟩

end ProxyScraper
